import Mathlib

/-!
Verification of the RTK multitasking demo (src/src/main.c).

The program creates five Sierra RTK tasks: an idle task, a 1 Hz timer task,
an accelerometer sampling task (`task_acc_code`), an averaging filter task
(`task_acc_filter_code`) and a plotting task (`task_plot_code`).  The four
periodic tasks each configure a 50-tick period, wait for the next period at
the head of an unbounded loop, report a missed deadline when the low bit of
the value returned by `wait_for_next_period` is set, and exchange the latest
accelerometer sample through the global `global_acc_data` cell guarded by
semaphore `SEM_SHARED_DATA`.

The embedding below models each task body as a pure step function on its
local state.  The per-period inputs are streams: `ds n` is the integer
returned by `wait_for_next_period` on period `n`, `loads n` is the sample a
reader obtains from the shared cell on period `n`, and `sensor n` is the
sample delivered by `accelerometer_receive` on period `n`.  Machine `int`
arithmetic is modelled on `Int` with explicit 32-bit wrapping (`wrap32`)
where overflow matters, and C `int` division is `Int.tdiv` (truncation
toward zero).  Side effects (console reports, pixel/text rendering,
semaphore operations) are reflected in the step outputs, the semaphore and
rendering calls additionally as an ordered event list so that the locking
discipline can be stated.
-/

/-- The 3-axis accelerometer sample type (`position_t` in main.c, three
`int16_t` fields, here unbounded `Int` with the 16-bit range stated as a
separate predicate `inRange16`). -/
structure position_t where
  x : Int
  y : Int
  z : Int
deriving DecidableEq, Repr

/-- The 16-bit range of the `int16_t` fields of `position_t`. -/
def inRange16 (p : position_t) : Prop :=
  -32768 ≤ p.x ∧ p.x ≤ 32767 ∧ -32768 ≤ p.y ∧ p.y ≤ 32767 ∧ -32768 ≤ p.z ∧ p.z ≤ 32767

instance : DecidablePred inRange16 := fun p => by
  unfold inRange16; infer_instance

/-- All ten slots of a filter history buffer are 16-bit samples. -/
def allInRange16 (arr : Fin 10 → position_t) : Prop :=
  ∀ i, inRange16 (arr i)

instance : DecidablePred allInRange16 := fun arr => by
  unfold allInRange16; infer_instance

/-- Wrapping of a mathematical integer into a 32-bit twos-complement `int`. -/
def wrap32 (z : Int) : Int :=
  (z + 2147483648) % 4294967296 - 2147483648

/-- Abstract side-effect events of one loop-body execution, in program
order: semaphore take/release of `SEM_SHARED_DATA`, the guarded whole-value
copy of `global_acc_data` (read or write), display rendering
(`tty_print` / `int_print` / `draw_hline` / `draw_filled_circle` /
`clear_screen_range`), the sensor read (`accelerometer_receive`), and the
console deadline-miss report (`printf`). -/
inductive Ev where
  | semTake
  | semRelease
  | cellRead
  | cellWrite
  | render
  | sensorRead
  | report
deriving DecidableEq, Repr

/-- Lock-discipline automaton used to check an event list: state 0 = lock
not held, 1 = lock held and no copy performed yet, 2 = lock held and the
single whole-value copy performed.  Shared-cell accesses are only legal
while the lock is held, the critical section must consist of exactly one
copy, and nothing else (rendering, sensor access, reports) may happen
between take and release. -/
def lockStep : Nat → Ev → Option Nat
  | 0, Ev.semTake => some 1
  | 0, Ev.semRelease => none
  | 0, Ev.cellRead => none
  | 0, Ev.cellWrite => none
  | 0, _ => some 0
  | 1, Ev.cellRead => some 2
  | 1, Ev.cellWrite => some 2
  | 1, _ => none
  | 2, Ev.semRelease => some 0
  | 2, _ => none
  | _, _ => none

/-- An event list obeys the locking discipline when the automaton accepts
it starting and ending in the unlocked state. -/
def lockOK (l : List Ev) : Bool :=
  (l.foldl (fun st e => st.bind (fun s => lockStep s e)) (some 0)) == some 0

/- ================= timer task (`timer_task_code`) ================= -/

/-- Period configured by `init_period_time(50)` in `timer_task_code`. -/
def timerPeriodTicks : Nat := 50

/-- Output of one period of the timer task: the deadline report decision,
the seconds value put on screen, and the side-effect events. -/
structure TimerOutput where
  missReport : Bool
  shownTime : Nat
  events : List Ev
deriving DecidableEq, Repr

/-- One loop-body execution of `timer_task_code`: test the low bit of the
`wait_for_next_period` value, increment the `unsigned int` seconds counter
(32-bit wrap), and render the task name and the counter. -/
def timerStep (time : Nat) (d : Nat) : Nat × TimerOutput :=
  let miss := (d &&& 1) != 0
  let t := (time + 1) % 4294967296
  (t, ⟨miss, t, (if miss then [Ev.report] else []) ++ [Ev.render, Ev.render]⟩)

/-- Timer task state (`time`) after `n` periods, starting from 0. -/
def timerRun (ds : Nat → Nat) : Nat → Nat
  | 0 => 0
  | n + 1 => (timerStep (timerRun ds n) (ds n)).fst

/-- Output produced by the timer task on period `n`. -/
def timerOut (ds : Nat → Nat) (n : Nat) : TimerOutput :=
  (timerStep (timerRun ds n) (ds n)).snd

/- ============== sampling task (`task_acc_code`) ============== -/

/-- Period configured by `init_period_time(50)` in `task_acc_code`. -/
def accPeriodTicks : Nat := 50

/-- Output of one period of the sampling task: deadline report decision,
the sample stored into the shared cell, the raw values put on screen, and
the side-effect events. -/
structure AccOutput where
  missReport : Bool
  stored : position_t
  shown : position_t
  events : List Ev
deriving DecidableEq, Repr

/-- One loop-body execution of `task_acc_code`: test the low bit, read the
sensor, copy the local sample into `global_acc_data` under the semaphore,
then render the three raw values (one `tty_print` banner plus label/value
pairs for x, y, z). -/
def accStep (d : Nat) (sensorSample : position_t) : AccOutput :=
  let miss := (d &&& 1) != 0
  ⟨miss, sensorSample, sensorSample,
    (if miss then [Ev.report] else []) ++
      [Ev.sensorRead, Ev.semTake, Ev.cellWrite, Ev.semRelease,
       Ev.render, Ev.render, Ev.render, Ev.render, Ev.render, Ev.render, Ev.render]⟩

/-- Output produced by the sampling task on period `n` (the task keeps no
state between periods other than the effects it emits). -/
def accOut (ds : Nat → Nat) (sensor : Nat → position_t) (n : Nat) : AccOutput :=
  accStep (ds n) (sensor n)

/- ============== filter task (`task_acc_filter_code`) ============== -/

/-- Period configured by `init_period_time(50)` in `task_acc_filter_code`. -/
def filterPeriodTicks : Nat := 50

/-- Local state of the filter task: the 10-slot history buffer
`acc_array`, the write cursor `counter` (kept in 0..9 by the `% 10`
update), and the priming flag `sampled_ten_times`. -/
structure FilterState where
  acc_array : Fin 10 → position_t
  counter : Fin 10
  sampled_ten_times : Bool

/-- What the filter task puts on the display during one period: the three
averages, the one-time clear of the average-display region
(`clear_screen_range(170, 0, 319, 110)` on the priming period), or the
"sampling" indicator. -/
inductive FilterDisplay where
  | sampling
  | primingClear
  | average (ax ay az : Int)
deriving DecidableEq, Repr

/-- Whether a filter display datum is an average. -/
def isAvg : FilterDisplay → Bool
  | FilterDisplay.average _ _ _ => true
  | _ => false

/-- Output of one period of the filter task. -/
structure FilterOutput where
  missReport : Bool
  display : FilterDisplay
  events : List Ev
deriving Repr

/-- The summation loop of `task_acc_filter_code`: starting from the reset
accumulator 0, add the selected field of each of the ten buffer slots in
index order. -/
def sumField (f : position_t → Int) (arr : Fin 10 → position_t) : Int :=
  (List.finRange 10).foldl (fun a i => a + f (arr i)) 0

/-- The intermediate accumulator value of the summation loop after its
first `k` additions. -/
def interSum (f : position_t → Int) (arr : Fin 10 → position_t) (k : Nat) : Int :=
  ((List.finRange 10).take k).foldl (fun a i => a + f (arr i)) 0

/-- The summation loop as executed on a 32-bit `int` accumulator: every
addition wraps to the machine representation. -/
def sumField32 (f : position_t → Int) (arr : Fin 10 → position_t) : Int :=
  (List.finRange 10).foldl (fun a i => wrap32 (a + f (arr i))) 0

/-- One loop-body execution of `task_acc_filter_code`: test the low bit,
copy `global_acc_data` into `acc_array[counter]` under the semaphore,
render the banner, then — depending on `sampled_ten_times` and `counter` —
either recompute and render the three truncated averages over the whole
buffer, or (first time `counter == 9`) set the priming flag and clear the
average-display region, or render the "sampling" indicator; finally
advance `counter = (counter + 1) % 10`. -/
def filterStep (s : FilterState) (d : Nat) (sample : position_t) :
    FilterState × FilterOutput :=
  let miss := (d &&& 1) != 0
  let evs0 := (if miss then [Ev.report] else []) ++
    [Ev.semTake, Ev.cellRead, Ev.semRelease, Ev.render]
  let arr := Function.update s.acc_array s.counter sample
  let next : Fin 10 := ⟨(s.counter.val + 1) % 10, by omega⟩
  if s.sampled_ten_times then
    (⟨arr, next, true⟩,
      ⟨miss,
       FilterDisplay.average
         (Int.tdiv (sumField (fun p => p.x) arr) 10)
         (Int.tdiv (sumField (fun p => p.y) arr) 10)
         (Int.tdiv (sumField (fun p => p.z) arr) 10),
       evs0 ++ [Ev.render, Ev.render, Ev.render, Ev.render, Ev.render, Ev.render]⟩)
  else if s.counter = (9 : Fin 10) then
    (⟨arr, next, true⟩, ⟨miss, FilterDisplay.primingClear, evs0 ++ [Ev.render]⟩)
  else
    (⟨arr, next, false⟩, ⟨miss, FilterDisplay.sampling, evs0 ++ [Ev.render]⟩)

/-- Filter task state after `n` periods.  `arr0` is the arbitrary initial
content of the uninitialised `acc_array`; the cursor starts at 0 and the
priming flag starts false. -/
def filterRun (arr0 : Fin 10 → position_t) (ds : Nat → Nat)
    (loads : Nat → position_t) : Nat → FilterState
  | 0 => ⟨arr0, 0, false⟩
  | n + 1 => (filterStep (filterRun arr0 ds loads n) (ds n) (loads n)).fst

/-- Output produced by the filter task on period `n` (the body runs on the
state accumulated so far and on the sample `loads n` read this period). -/
def filterOut (arr0 : Fin 10 → position_t) (ds : Nat → Nat)
    (loads : Nat → position_t) (n : Nat) : FilterOutput :=
  (filterStep (filterRun arr0 ds loads n) (ds n) (loads n)).snd

/- ============== plotting task (`task_plot_code`) ============== -/

/-- Period configured by `init_period_time(50)` in `task_plot_code`. -/
def plotPeriodTicks : Nat := 50

/-- Output of one period of the plotting task: deadline report decision,
whether the chart region was cleared this period
(`clear_screen_range(170, 125, 319, 239)`), the centre of the filled
circle drawn, and the side-effect events. -/
structure PlotOutput where
  missReport : Bool
  chartClear : Bool
  point : Int × Int
  events : List Ev
deriving DecidableEq, Repr

/-- One loop-body execution of `task_plot_code`: test the low bit, clear
the chart region when `counter == 0`, render the banner, copy
`global_acc_data` out under the semaphore, render the baseline label and
line, and draw one filled circle at
`(205 + 5*counter, 180 + ((z / 8) * (-1)))`; finally advance
`counter = (counter + 1) % 5`. -/
def plotStep (counter : Nat) (d : Nat) (sample : position_t) :
    Nat × PlotOutput :=
  let miss := (d &&& 1) != 0
  let clear := counter == 0
  ((counter + 1) % 5,
    ⟨miss, clear,
     (205 + 5 * (counter : Int), 180 + (Int.tdiv sample.z 8) * (-1)),
     (if miss then [Ev.report] else []) ++
       (if clear then [Ev.render] else []) ++
       [Ev.render, Ev.semTake, Ev.cellRead, Ev.semRelease,
        Ev.render, Ev.render, Ev.render]⟩)

/-- Plot task cursor after `n` periods, starting from 0. -/
def plotRun (ds : Nat → Nat) (loads : Nat → position_t) : Nat → Nat
  | 0 => 0
  | n + 1 => (plotStep (plotRun ds loads n) (ds n) (loads n)).fst

/-- Output produced by the plotting task on period `n`. -/
def plotOut (ds : Nat → Nat) (loads : Nat → position_t) (n : Nat) : PlotOutput :=
  (plotStep (plotRun ds loads n) (ds n) (loads n)).snd

/- ============== task creation in `main` ============== -/

/-- Task identifier `IDLE`. -/
def IDLE : Nat := 0
/-- Task identifier `TASK_TIMER`. -/
def TASK_TIMER : Nat := 1
/-- Task identifier `TASK_ACC`. -/
def TASK_ACC : Nat := 2
/-- Task identifier `TASK_ACC_FILTER`. -/
def TASK_ACC_FILTER : Nat := 3
/-- Task identifier `TASK_PLOT`. -/
def TASK_PLOT : Nat := 4

/-- One `task_create` call: identifier, priority argument and stack size.
In the Sierra priority argument a larger number is a higher priority; the
idle task is created at the bottom priority 0. -/
structure TaskCreate where
  id : Nat
  priority : Nat
  stackSize : Nat
deriving DecidableEq, Repr

/-- The five `task_create` calls of `main`, in program order. -/
def createdTasks : List TaskCreate :=
  [⟨IDLE, 0, 800⟩, ⟨TASK_TIMER, 1, 800⟩, ⟨TASK_ACC, 1, 800⟩,
   ⟨TASK_ACC_FILTER, 1, 800⟩, ⟨TASK_PLOT, 1, 800⟩]

/-- Argument of the `set_timebase` call in `main` (the 20 ms / 50 Hz RTK
tick base). -/
def timebaseArg : Nat := 1000

/- ============== concrete streams used by witnesses ============== -/

/-- A concrete all-zero initial buffer. -/
def zeroInit : Fin 10 → position_t := fun _ => ⟨0, 0, 0⟩

/-- A concrete deadline stream that never signals a miss. -/
def zeroDs : Nat → Nat := fun _ => 0

/-- A concrete constant load stream. -/
def constLoads : Nat → position_t := fun _ => ⟨1, 2, 3⟩

/-- The load stream in which the filter reads the scenario samples
(1,2,3), (4,5,6), …, (28,29,30) on its periods 1..10 (and the pattern
continues afterwards). -/
def laggedLoads : Nat → position_t :=
  fun k => ⟨3 * (k : Int) - 2, 3 * (k : Int) - 1, 3 * (k : Int)⟩

/-- The load stream in which the filter reads the scenario samples
(1,2,3), (4,5,6), …, (28,29,30) on its periods 0..9 and afterwards keeps
reading the last value stored into the shared cell, (28,29,30). -/
def scenarioLoads : Nat → position_t := fun k =>
  if k < 10 then ⟨1 + 3 * (k : Int), 2 + 3 * (k : Int), 3 + 3 * (k : Int)⟩
  else ⟨28, 29, 30⟩

/-- A concrete all-(1,2,3) buffer used by the overflow witness. -/
def smallArr : Fin 10 → position_t := fun _ => ⟨1, 2, 3⟩

/-- The load stream reads the scenario samples (1,2,3), (4,5,6), …,
(28,29,30) on the filter task's periods 1 through 10. -/
def laggedScenario (loads : Nat → position_t) : Prop :=
  ∀ k : Nat, 1 ≤ k → k ≤ 10 →
    loads k = ⟨3 * (k : Int) - 2, 3 * (k : Int) - 1, 3 * (k : Int)⟩

/- ============== helper lemmas: filter task structure ============== -/

theorem filterStep_counter (s : FilterState) (d : Nat) (x : position_t) :
    ((filterStep s d x).fst).counter = ⟨(s.counter.val + 1) % 10, by omega⟩ := by
  unfold filterStep
  by_cases hf : s.sampled_ten_times <;> by_cases h9 : s.counter = (9 : Fin 10) <;>
    simp [hf, h9]

theorem filterStep_flag (s : FilterState) (d : Nat) (x : position_t) :
    ((filterStep s d x).fst).sampled_ten_times
      = (s.sampled_ten_times || decide (s.counter = (9 : Fin 10))) := by
  unfold filterStep
  by_cases hf : s.sampled_ten_times <;> by_cases h9 : s.counter = (9 : Fin 10) <;>
    simp [hf, h9]

theorem filterStep_arr (s : FilterState) (d : Nat) (x : position_t) :
    ((filterStep s d x).fst).acc_array = Function.update s.acc_array s.counter x := by
  unfold filterStep
  by_cases hf : s.sampled_ten_times <;> by_cases h9 : s.counter = (9 : Fin 10) <;>
    simp [hf, h9]

theorem filterStep_display_primed (s : FilterState) (d : Nat) (x : position_t)
    (hf : s.sampled_ten_times = true) :
    (filterStep s d x).snd.display = FilterDisplay.average
      (Int.tdiv (sumField (fun p => p.x) (Function.update s.acc_array s.counter x)) 10)
      (Int.tdiv (sumField (fun p => p.y) (Function.update s.acc_array s.counter x)) 10)
      (Int.tdiv (sumField (fun p => p.z) (Function.update s.acc_array s.counter x)) 10) := by
  unfold filterStep
  simp [hf]

theorem filterStep_display_unprimed (s : FilterState) (d : Nat) (x : position_t)
    (hf : s.sampled_ten_times = false) :
    (filterStep s d x).snd.display =
      if s.counter = (9 : Fin 10) then FilterDisplay.primingClear
      else FilterDisplay.sampling := by
  unfold filterStep
  by_cases h9 : s.counter = (9 : Fin 10) <;> simp [hf, h9]

theorem filterRun_succ (arr0 : Fin 10 → position_t) (ds : Nat → Nat)
    (loads : Nat → position_t) (n : Nat) :
    filterRun arr0 ds loads (n + 1)
      = (filterStep (filterRun arr0 ds loads n) (ds n) (loads n)).fst := rfl

theorem counter_run (arr0 : Fin 10 → position_t) (ds : Nat → Nat)
    (loads : Nat → position_t) : ∀ n,
    (filterRun arr0 ds loads n).counter = ⟨n % 10, by omega⟩ := by
  intro n
  induction n with
  | zero => rfl
  | succ n ih =>
    rw [filterRun_succ, filterStep_counter, ih]
    apply Fin.ext
    show (n % 10 + 1) % 10 = (n + 1) % 10
    omega

theorem flag_run (arr0 : Fin 10 → position_t) (ds : Nat → Nat)
    (loads : Nat → position_t) : ∀ n,
    ((filterRun arr0 ds loads n).sampled_ten_times = true ↔ 10 ≤ n) := by
  intro n
  induction n with
  | zero => simp [filterRun]
  | succ n ih =>
    rw [filterRun_succ, filterStep_flag, counter_run, Bool.or_eq_true, ih]
    simp only [decide_eq_true_eq, Fin.ext_iff]
    show 10 ≤ n ∨ n % 10 = (9 : Fin 10).val ↔ 10 ≤ n + 1
    have h9 : ((9 : Fin 10) : Nat) = 9 := rfl
    omega

theorem arr_run (arr0 : Fin 10 → position_t) (ds : Nat → Nat)
    (loads : Nat → position_t) : ∀ n m, m < n → n ≤ m + 10 →
    (filterRun arr0 ds loads n).acc_array ⟨m % 10, by omega⟩ = loads m := by
  intro n
  induction n with
  | zero => intro m h1 _; omega
  | succ n ih =>
    intro m h1 h2
    rw [filterRun_succ, filterStep_arr, counter_run]
    rcases Nat.lt_or_ge m n with hm | hm
    · have hne : (⟨m % 10, by omega⟩ : Fin 10) ≠ ⟨n % 10, by omega⟩ := by
        apply Fin.ne_of_val_ne
        show m % 10 ≠ n % 10
        omega
      rw [Function.update_noteq hne]
      exact ih m hm (by omega)
    · have hmn : m = n := by omega
      subst hmn
      exact Function.update_same _ _ _

theorem foldl_add_general (g : Fin 10 → Int) : ∀ (l : List (Fin 10)) (a : Int),
    l.foldl (fun s i => s + g i) a = a + (l.map g).sum := by
  intro l
  induction l with
  | nil => intro a; simp
  | cons x t ih =>
    intro a
    simp only [List.foldl_cons, List.map_cons, List.sum_cons, ih]
    ring

theorem sumField_eq_sum (f : position_t → Int) (arr : Fin 10 → position_t) :
    sumField f arr = ∑ i : Fin 10, f (arr i) := by
  unfold sumField
  rw [foldl_add_general, Fin.sum_univ_def, zero_add]

theorem sum_buffer (arr0 : Fin 10 → position_t) (ds : Nat → Nat)
    (loads : Nat → position_t) (N : Nat) (hN : 10 ≤ N) (g : position_t → Int) :
    ∑ i : Fin 10, g ((filterRun arr0 ds loads N).acc_array i)
      = ∑ k ∈ Finset.range 10, g (loads (N - 10 + k)) := by
  rw [← Fin.sum_univ_eq_sum_range (fun k => g (loads (N - 10 + k))) 10]
  refine (Fintype.sum_bijective
    (fun k : Fin 10 => (⟨(N - 10 + k.val) % 10, by omega⟩ : Fin 10)) ?_ _ _ ?_).symm
  · apply Finite.injective_iff_bijective.mp
    intro a b hab
    have hv : (N - 10 + a.val) % 10 = (N - 10 + b.val) % 10 := congrArg Fin.val hab
    have ha := a.isLt
    have hb := b.isLt
    apply Fin.ext
    omega
  · intro k
    have hk := k.isLt
    exact congrArg g (arr_run arr0 ds loads N (N - 10 + k.val) (by omega) (by omega)).symm

theorem filter_display_primed (arr0 : Fin 10 → position_t) (ds : Nat → Nat)
    (loads : Nat → position_t) (n : Nat) (h : 10 ≤ n) :
    (filterOut arr0 ds loads n).display = FilterDisplay.average
      (Int.tdiv (∑ k ∈ Finset.range 10, (loads (n - 9 + k)).x) 10)
      (Int.tdiv (∑ k ∈ Finset.range 10, (loads (n - 9 + k)).y) 10)
      (Int.tdiv (∑ k ∈ Finset.range 10, (loads (n - 9 + k)).z) 10) := by
  have hflag : (filterRun arr0 ds loads n).sampled_ten_times = true :=
    (flag_run arr0 ds loads n).mpr h
  unfold filterOut
  rw [filterStep_display_primed _ _ _ hflag]
  have harr : Function.update (filterRun arr0 ds loads n).acc_array
      (filterRun arr0 ds loads n).counter (loads n)
      = (filterRun arr0 ds loads (n + 1)).acc_array := by
    rw [filterRun_succ, filterStep_arr]
  have hsub : n + 1 - 10 = n - 9 := by omega
  rw [harr, sumField_eq_sum, sumField_eq_sum, sumField_eq_sum,
    sum_buffer arr0 ds loads (n + 1) (by omega),
    sum_buffer arr0 ds loads (n + 1) (by omega),
    sum_buffer arr0 ds loads (n + 1) (by omega), hsub]

theorem filter_display_unprimed (arr0 : Fin 10 → position_t) (ds : Nat → Nat)
    (loads : Nat → position_t) (n : Nat) (h : n < 10) :
    (filterOut arr0 ds loads n).display =
      if n = 9 then FilterDisplay.primingClear else FilterDisplay.sampling := by
  have hflag : (filterRun arr0 ds loads n).sampled_ten_times = false := by
    cases hb : (filterRun arr0 ds loads n).sampled_ten_times
    · rfl
    · exact absurd ((flag_run arr0 ds loads n).mp hb) (by omega)
  unfold filterOut
  rw [filterStep_display_unprimed _ _ _ hflag, counter_run]
  by_cases h9 : n = 9
  · subst h9
    rw [if_pos rfl, if_pos (by apply Fin.ext; rfl)]
  · rw [if_neg, if_neg h9]
    intro hc
    have hv : n % 10 = ((9 : Fin 10) : Nat) := congrArg Fin.val hc
    have h9v : ((9 : Fin 10) : Nat) = 9 := rfl
    omega

/- ============== helper lemmas: plot task structure ============== -/

theorem plotRun_succ (ds : Nat → Nat) (loads : Nat → position_t) (n : Nat) :
    plotRun ds loads (n + 1)
      = (plotStep (plotRun ds loads n) (ds n) (loads n)).fst := rfl

theorem plotStep_fst (c d : Nat) (x : position_t) :
    (plotStep c d x).fst = (c + 1) % 5 := rfl

theorem plotRun_eq (ds : Nat → Nat) (loads : Nat → position_t) : ∀ n,
    plotRun ds loads n = n % 5 := by
  intro n
  induction n with
  | zero => rfl
  | succ n ih =>
    rw [plotRun_succ, plotStep_fst, ih]
    omega

/- ============== claim theorems ============== -/

/-- C1: on every period from the first primed period onward (period index
10 and later, i.e. every period after the history buffer has been fully
written once), the filter task displays the component-wise truncated
integer mean of the last 10 samples it read from the shared cell — the sum
of the 10 values divided by 10 with truncation toward zero — for any
initial buffer content and any deadline-miss pattern. -/
theorem filter_average_matches_mean (arr0 : Fin 10 → position_t)
    (ds : Nat → Nat) (loads : Nat → position_t) (n : Nat) (h : 10 ≤ n) :
    (filterOut arr0 ds loads n).display = FilterDisplay.average
      (Int.tdiv (∑ k ∈ Finset.range 10, (loads (n - 9 + k)).x) 10)
      (Int.tdiv (∑ k ∈ Finset.range 10, (loads (n - 9 + k)).y) 10)
      (Int.tdiv (∑ k ∈ Finset.range 10, (loads (n - 9 + k)).z) 10) :=
  filter_display_primed arr0 ds loads n h

/-- Witness for C1 at period 10 with a constant load stream. -/
theorem filter_average_matches_mean_witness :
    10 ≤ 10 ∧ (filterOut zeroInit zeroDs constLoads 10).display = FilterDisplay.average
      (Int.tdiv (∑ k ∈ Finset.range 10, (constLoads (10 - 9 + k)).x) 10)
      (Int.tdiv (∑ k ∈ Finset.range 10, (constLoads (10 - 9 + k)).y) 10)
      (Int.tdiv (∑ k ∈ Finset.range 10, (constLoads (10 - 9 + k)).z) 10) :=
  ⟨by omega, filter_average_matches_mean zeroInit zeroDs constLoads 10 (by omega)⟩

/-- C2 counterexample: when the filter task reads the ten scenario samples
(1,2,3) … (28,29,30) in turn on its periods 0 through 9 (and afterwards
keeps reading the last value stored into the cell, (28,29,30)), no average
at all is produced during periods 0–9, and the first average it produces —
on period 10 — is (17, 18, 19), not the claimed (14, 15, 16): the buffer
slot holding (1,2,3) has already been overwritten by the period-10 load
before the first average is computed. -/
theorem scenario_zero_lag_first_average :
    ((List.range 10).map scenarioLoads
       = [⟨1, 2, 3⟩, ⟨4, 5, 6⟩, ⟨7, 8, 9⟩, ⟨10, 11, 12⟩, ⟨13, 14, 15⟩,
          ⟨16, 17, 18⟩, ⟨19, 20, 21⟩, ⟨22, 23, 24⟩, ⟨25, 26, 27⟩, ⟨28, 29, 30⟩])
    ∧ ((List.range 10).all
        (fun m => !(isAvg (filterOut zeroInit zeroDs scenarioLoads m).display)) = true)
    ∧ (filterOut zeroInit zeroDs scenarioLoads 10).display = FilterDisplay.average 17 18 19
    ∧ FilterDisplay.average 17 18 19 ≠ FilterDisplay.average 14 15 16 :=
  ⟨by decide, by decide, by decide, by decide⟩

/-- C2 amended: if the ten scenario samples (1,2,3) … (28,29,30) are the
values the filter task reads on its periods 1 through 10, then the first
average it produces after priming — on period 10, covering exactly those
ten loads — is (14, 15, 16), and no average is produced on any earlier
period. -/
theorem scenario_lagged_first_average (arr0 : Fin 10 → position_t)
    (ds : Nat → Nat) (loads : Nat → position_t) (h : laggedScenario loads) :
    (filterOut arr0 ds loads 10).display = FilterDisplay.average 14 15 16
    ∧ ((List.range 10).all
        (fun m => !(isAvg (filterOut arr0 ds loads m).display)) = true) := by
  constructor
  · rw [filter_display_primed arr0 ds loads 10 (by omega)]
    have hx : ∑ k ∈ Finset.range 10, (loads (10 - 9 + k)).x
        = ∑ k ∈ Finset.range 10, (3 * (k : Int) + 1) := by
      refine Finset.sum_congr rfl ?_
      intro k hk
      have hk10 : k < 10 := Finset.mem_range.mp hk
      rw [h (10 - 9 + k) (by omega) (by omega)]
      show (3 * (((10 - 9 + k : Nat) : Int)) - 2) = 3 * (k : Int) + 1
      push_cast
      ring
    have hy : ∑ k ∈ Finset.range 10, (loads (10 - 9 + k)).y
        = ∑ k ∈ Finset.range 10, (3 * (k : Int) + 2) := by
      refine Finset.sum_congr rfl ?_
      intro k hk
      have hk10 : k < 10 := Finset.mem_range.mp hk
      rw [h (10 - 9 + k) (by omega) (by omega)]
      show (3 * (((10 - 9 + k : Nat) : Int)) - 1) = 3 * (k : Int) + 2
      push_cast
      ring
    have hz : ∑ k ∈ Finset.range 10, (loads (10 - 9 + k)).z
        = ∑ k ∈ Finset.range 10, (3 * (k : Int) + 3) := by
      refine Finset.sum_congr rfl ?_
      intro k hk
      have hk10 : k < 10 := Finset.mem_range.mp hk
      rw [h (10 - 9 + k) (by omega) (by omega)]
      show (3 * (((10 - 9 + k : Nat) : Int))) = 3 * (k : Int) + 3
      push_cast
      ring
    rw [hx, hy, hz]
    decide
  · rw [List.all_eq_true]
    intro m hm
    have hm10 : m < 10 := List.mem_range.mp hm
    rw [Bool.not_eq_true']
    rw [filter_display_unprimed arr0 ds loads m hm10]
    by_cases h9 : m = 9 <;> simp [h9, isAvg]

/-- Witness for the amended C2 on the concrete lagged load stream. -/
theorem scenario_lagged_first_average_witness :
    laggedScenario laggedLoads
    ∧ ((filterOut zeroInit zeroDs laggedLoads 10).display = FilterDisplay.average 14 15 16
      ∧ ((List.range 10).all
          (fun m => !(isAvg (filterOut zeroInit zeroDs laggedLoads m).display)) = true)) :=
  ⟨fun _ _ _ => rfl,
   scenario_lagged_first_average zeroInit zeroDs laggedLoads (fun _ _ _ => rfl)⟩

/-- C3: the filter task's priming flag turns true exactly at the period
whose write is the one about to wrap the cursor (period index 9, the
period on which the cursor value is 9), it is never true before and never
false after, and the one-time clear of the average-display region happens
exactly on that same period. -/
theorem primed_flag_set_once_at_wrap (arr0 : Fin 10 → position_t)
    (ds : Nat → Nat) (loads : Nat → position_t) (n : Nat) :
    (((filterRun arr0 ds loads (n + 1)).sampled_ten_times = true
        ∧ (filterRun arr0 ds loads n).sampled_ten_times = false) ↔ n = 9)
    ∧ ((filterOut arr0 ds loads n).display = FilterDisplay.primingClear ↔ n = 9) := by
  have hb : ∀ m, ((filterRun arr0 ds loads m).sampled_ten_times = false ↔ ¬ (10 ≤ m)) := by
    intro m
    rw [← flag_run arr0 ds loads m]
    cases (filterRun arr0 ds loads m).sampled_ten_times <;> simp
  constructor
  · rw [flag_run, hb]
    omega
  · by_cases h : n < 10
    · rw [filter_display_unprimed arr0 ds loads n h]
      by_cases h9 : n = 9
      · subst h9; simp
      · rw [if_neg h9]
        simp [h9]
    · rw [filter_display_primed arr0 ds loads n (by omega)]
      constructor
      · intro hc
        exact absurd hc (by simp)
      · intro h9
        omega

/-- C4: on every period before the buffer has been written ten times
(period index below 10) the filter task displays no average; on the
periods of the priming window proper (cursor values 0 through 8, period
index up to 8) it displays the "sampling" indicator, and on period 9 the
priming clear. -/
theorem no_average_before_primed (arr0 : Fin 10 → position_t)
    (ds : Nat → Nat) (loads : Nat → position_t) (n : Nat) (h : n < 10) :
    isAvg (filterOut arr0 ds loads n).display = false
    ∧ (filterOut arr0 ds loads n).display
        = (if n = 9 then FilterDisplay.primingClear else FilterDisplay.sampling) := by
  have hd := filter_display_unprimed arr0 ds loads n h
  refine ⟨?_, hd⟩
  rw [hd]
  by_cases h9 : n = 9 <;> simp [h9, isAvg]

/-- Witness for C4 at period 5. -/
theorem no_average_before_primed_witness :
    5 < 10 ∧ (isAvg (filterOut zeroInit zeroDs constLoads 5).display = false
      ∧ (filterOut zeroInit zeroDs constLoads 5).display
          = (if 5 = 9 then FilterDisplay.primingClear else FilterDisplay.sampling)) :=
  ⟨by omega, no_average_before_primed zeroInit zeroDs constLoads 5 (by omega)⟩

/-- C5: the plot task's cursor on period `n` is `n % 5` — so it cycles
0,1,2,3,4,0,1,… forever, advancing by one modulo 5 each period — and the
chart-region clear happens exactly on the periods whose cursor value is 0:
the initial period and exactly the periods reached by wrapping from 4 back
to 0. -/
theorem plot_cursor_cycles_and_clear (ds : Nat → Nat)
    (loads : Nat → position_t) (n : Nat) :
    plotRun ds loads n = n % 5
    ∧ ((plotOut ds loads n).chartClear = true ↔ n % 5 = 0) := by
  refine ⟨plotRun_eq ds loads n, ?_⟩
  unfold plotOut plotStep
  simp [plotRun_eq ds loads n]

/-- C6: every period the plot task draws one filled point whose horizontal
centre is `205 + 5 * cursor` (cursor = period index mod 5) and whose
vertical centre is `180 - z/8` (z the sample loaded this period, division
truncating toward zero), so positive z plots above the baseline at 180. -/
theorem plot_point_position (ds : Nat → Nat) (loads : Nat → position_t) (n : Nat) :
    (plotOut ds loads n).point
      = (205 + 5 * ((n % 5 : Nat) : Int), 180 - Int.tdiv (loads n).z 8) := by
  unfold plotOut plotStep
  simp [plotRun_eq ds loads n]
  ring

/-- C7: for each of the four periodic tasks and every period, the
deadline-miss report is emitted exactly when the value returned by
`wait_for_next_period` has its low bit set (the `& 0x1` test is equivalent
to oddness), and in either case the loop proceeds: the next state of every
task trace is again produced by one more application of its step function,
for every input — no halting or exiting transition exists. -/
theorem deadline_report_iff_low_bit (ds : Nat → Nat)
    (loads sensor : Nat → position_t) (arr0 : Fin 10 → position_t) (n : Nat) :
    ((timerOut ds n).missReport = true ↔ (ds n) % 2 = 1)
    ∧ ((accOut ds sensor n).missReport = true ↔ (ds n) % 2 = 1)
    ∧ ((filterOut arr0 ds loads n).missReport = true ↔ (ds n) % 2 = 1)
    ∧ ((plotOut ds loads n).missReport = true ↔ (ds n) % 2 = 1)
    ∧ timerRun ds (n + 1) = (timerStep (timerRun ds n) (ds n)).fst
    ∧ filterRun arr0 ds loads (n + 1)
        = (filterStep (filterRun arr0 ds loads n) (ds n) (loads n)).fst
    ∧ plotRun ds loads (n + 1)
        = (plotStep (plotRun ds loads n) (ds n) (loads n)).fst := by
  have hbit : ∀ d : Nat, (((d &&& 1) != 0) = true ↔ d % 2 = 1) := by
    intro d
    rw [Nat.and_one_is_mod]
    simp only [bne_iff_ne, ne_eq]
    omega
  have hfil : (filterOut arr0 ds loads n).missReport
      = ((ds n &&& 1) != 0) := by
    unfold filterOut filterStep
    by_cases hf : (filterRun arr0 ds loads n).sampled_ten_times <;>
      by_cases h9 : (filterRun arr0 ds loads n).counter = (9 : Fin 10) <;>
      simp [hf, h9]
  refine ⟨hbit (ds n), hbit (ds n), ?_, hbit (ds n), rfl, rfl, rfl⟩
  rw [hfil]
  exact hbit (ds n)

theorem filterStep_events (s : FilterState) (d : Nat) (smp : position_t) :
    (filterStep s d smp).snd.events
      = (if (d &&& 1) != 0 then [Ev.report] else [])
        ++ [Ev.semTake, Ev.cellRead, Ev.semRelease, Ev.render]
        ++ (if s.sampled_ten_times then
              [Ev.render, Ev.render, Ev.render, Ev.render, Ev.render, Ev.render]
            else [Ev.render]) := by
  unfold filterStep
  cases hf : s.sampled_ten_times <;> by_cases h9 : s.counter = (9 : Fin 10) <;>
    simp [hf, h9]

/-- C8: for every task body, every state and every input, the event trace
of one period obeys the locking discipline: each shared-cell read or write
lies between a `sem_take` and the matching `sem_release`, the critical
section consists of exactly the one whole-value copy (no rendering, sensor
access or reporting while the lock is held), and no shared-cell access
occurs outside a critical section. -/
theorem lock_discipline_all_tasks (s : FilterState) (c d t : Nat)
    (x smp : position_t) :
    lockOK (timerStep t d).snd.events = true
    ∧ lockOK (accStep d x).events = true
    ∧ lockOK ((filterStep s d smp).snd.events) = true
    ∧ lockOK ((plotStep c d smp).snd.events) = true := by
  refine ⟨?_, ?_, ?_, ?_⟩
  · simp only [timerStep]
    generalize ((d &&& 1) != 0) = b
    cases b <;> decide
  · simp only [accStep]
    generalize ((d &&& 1) != 0) = b
    cases b <;> decide
  · rw [filterStep_events]
    generalize ((d &&& 1) != 0) = b
    generalize s.sampled_ten_times = b2
    cases b <;> cases b2 <;> decide
  · simp only [plotStep]
    generalize ((d &&& 1) != 0) = b
    generalize (c == 0) = bc
    cases b <;> cases bc <;> decide

/-- C9: the four periodic tasks all configure a period of 50 ticks, the
five `task_create` calls give the idle task priority 0 and every periodic
task priority 1, so the periodic tasks have equal priority and the idle
task a strictly lower one. -/
theorem task_config_periods_and_priorities :
    (timerPeriodTicks = 50 ∧ accPeriodTicks = 50 ∧ filterPeriodTicks = 50
      ∧ plotPeriodTicks = 50)
    ∧ (createdTasks.map TaskCreate.id
        = [IDLE, TASK_TIMER, TASK_ACC, TASK_ACC_FILTER, TASK_PLOT])
    ∧ ((createdTasks.filter (fun tk => tk.id != IDLE)).map TaskCreate.priority
        = [1, 1, 1, 1])
    ∧ ((createdTasks.filter (fun tk => tk.id == IDLE)).all
        (fun tk => (createdTasks.filter (fun u => u.id != IDLE)).all
          (fun u => decide (tk.priority < u.priority))) = true) := by
  decide

/- ============== helper lemmas: 32-bit accumulation ============== -/

theorem wrap32_eq_self (z : Int) (h1 : -2147483648 ≤ z) (h2 : z < 2147483648) :
    wrap32 z = z := by
  unfold wrap32
  omega

theorem foldl_wrap_bound :
    ∀ (l : List Int) (a : Int) (c : Nat),
      (∀ v ∈ l, -32768 ≤ v ∧ v ≤ 32767) → c + l.length ≤ 10 →
      -32768 * (c : Int) ≤ a → a ≤ 32767 * (c : Int) →
      (l.foldl (fun s v => wrap32 (s + v)) a = l.foldl (fun s v => s + v) a
        ∧ -327680 ≤ l.foldl (fun s v => s + v) a
        ∧ l.foldl (fun s v => s + v) a ≤ 327670) := by
  intro l
  induction l with
  | nil =>
    intro a c hv hc h1 h2
    have hc10 : (c : Int) ≤ 10 := by
      have hcn : c ≤ 10 := by
        simp only [List.length_nil, Nat.add_zero] at hc
        exact hc
      exact_mod_cast hcn
    exact ⟨rfl, by simp only [List.foldl_nil]; nlinarith,
      by simp only [List.foldl_nil]; nlinarith⟩
  | cons v tl ih =>
    intro a c hv hc h1 h2
    simp only [List.foldl_cons, List.length_cons] at *
    have hvv := hv v (List.mem_cons_self v tl)
    have hc9 : (c : Int) ≤ 9 := by
      have : c ≤ 9 := by omega
      exact_mod_cast this
    have hcast : ((c + 1 : Nat) : Int) = (c : Int) + 1 := by push_cast; ring
    have hlo : -32768 * ((c : Int) + 1) ≤ a + v := by nlinarith
    have hhi : a + v ≤ 32767 * ((c : Int) + 1) := by nlinarith
    have hw : wrap32 (a + v) = a + v := by
      apply wrap32_eq_self <;> nlinarith
    rw [hw]
    refine ih (a + v) (c + 1) (fun u hu => hv u (List.mem_cons_of_mem v hu))
      (by omega) ?_ ?_
    · rw [hcast]; exact hlo
    · rw [hcast]; exact hhi

theorem tdiv_ten_bounds (s : Int) (h1 : -327680 ≤ s) (h2 : s ≤ 327670) :
    -327680 ≤ Int.tdiv s 10 ∧ Int.tdiv s 10 ≤ 327670 := by
  rcases le_or_lt 0 s with hs | hs
  · rw [Int.tdiv_eq_ediv hs (by omega)]
    omega
  · have hneg : Int.tdiv s 10 = -(Int.tdiv (-s) 10) := by
      have h := Int.neg_tdiv (-s) 10
      rw [neg_neg] at h
      exact h
    rw [hneg, Int.tdiv_eq_ediv (by omega) (by omega)]
    omega

theorem field_facts (f : position_t → Int) (arr : Fin 10 → position_t) (k : Nat)
    (hv : ∀ i : Fin 10, -32768 ≤ f (arr i) ∧ f (arr i) ≤ 32767) :
    (-327680 ≤ interSum f arr k ∧ interSum f arr k ≤ 327670)
    ∧ sumField32 f arr = sumField f arr
    ∧ (-327680 ≤ sumField f arr ∧ sumField f arr ≤ 327670) := by
  have key : ∀ (l : List (Fin 10)), l.length ≤ 10 →
      (l.foldl (fun s i => wrap32 (s + f (arr i))) 0
          = l.foldl (fun s i => s + f (arr i)) 0
        ∧ -327680 ≤ l.foldl (fun s i => s + f (arr i)) 0
        ∧ l.foldl (fun s i => s + f (arr i)) 0 ≤ 327670) := by
    intro l hl
    have hmap := foldl_wrap_bound (l.map (fun i => f (arr i))) 0 0 ?_ ?_ ?_ ?_
    · rw [List.foldl_map, List.foldl_map] at hmap
      exact hmap
    · intro v hvm
      rcases List.mem_map.mp hvm with ⟨i, _, rfl⟩
      exact hv i
    · simpa using hl
    · simp
    · simp
  refine ⟨?_, ?_, ?_⟩
  · exact (key ((List.finRange 10).take k)
      (by simp [List.length_take])).2
  · exact (key (List.finRange 10) (by simp)).1
  · exact (key (List.finRange 10) (by simp)).2

/-- C10: whenever every slot of the filter history buffer is a 16-bit
sample, every intermediate accumulator value of the per-axis summation
loop stays within [-327680, 327670]; consequently the 32-bit `int`
accumulation computes exactly the mathematical sum for each axis, and the
division by 10 is likewise overflow-free, so the computed value is the
exact truncated-toward-zero integer mean. -/
theorem filter_sum_no_overflow (arr : Fin 10 → position_t) (k : Nat)
    (h : allInRange16 arr) :
    (-327680 ≤ interSum (fun p => p.x) arr k ∧ interSum (fun p => p.x) arr k ≤ 327670)
    ∧ (-327680 ≤ interSum (fun p => p.y) arr k ∧ interSum (fun p => p.y) arr k ≤ 327670)
    ∧ (-327680 ≤ interSum (fun p => p.z) arr k ∧ interSum (fun p => p.z) arr k ≤ 327670)
    ∧ sumField32 (fun p => p.x) arr = sumField (fun p => p.x) arr
    ∧ sumField32 (fun p => p.y) arr = sumField (fun p => p.y) arr
    ∧ sumField32 (fun p => p.z) arr = sumField (fun p => p.z) arr
    ∧ wrap32 (Int.tdiv (sumField (fun p => p.x) arr) 10)
        = Int.tdiv (sumField (fun p => p.x) arr) 10
    ∧ wrap32 (Int.tdiv (sumField (fun p => p.y) arr) 10)
        = Int.tdiv (sumField (fun p => p.y) arr) 10
    ∧ wrap32 (Int.tdiv (sumField (fun p => p.z) arr) 10)
        = Int.tdiv (sumField (fun p => p.z) arr) 10 := by
  have hx := field_facts (fun p => p.x) arr k
    (fun i => ⟨(h i).1, (h i).2.1⟩)
  have hy := field_facts (fun p => p.y) arr k
    (fun i => ⟨(h i).2.2.1, (h i).2.2.2.1⟩)
  have hz := field_facts (fun p => p.z) arr k
    (fun i => ⟨(h i).2.2.2.2.1, (h i).2.2.2.2.2⟩)
  have wdiv : ∀ s : Int, -327680 ≤ s → s ≤ 327670 →
      wrap32 (Int.tdiv s 10) = Int.tdiv s 10 := by
    intro s hs1 hs2
    have hb := tdiv_ten_bounds s hs1 hs2
    exact wrap32_eq_self _ (by omega) (by omega)
  exact ⟨hx.1, hy.1, hz.1, hx.2.1, hy.2.1, hz.2.1,
    wdiv _ hx.2.2.1 hx.2.2.2, wdiv _ hy.2.2.1 hy.2.2.2, wdiv _ hz.2.2.1 hz.2.2.2⟩

/-- Witness for C10 on the all-(1,2,3) buffer at the final loop index. -/
theorem filter_sum_no_overflow_witness :
    allInRange16 smallArr
    ∧ ((-327680 ≤ interSum (fun p => p.x) smallArr 10
          ∧ interSum (fun p => p.x) smallArr 10 ≤ 327670)
      ∧ (-327680 ≤ interSum (fun p => p.y) smallArr 10
          ∧ interSum (fun p => p.y) smallArr 10 ≤ 327670)
      ∧ (-327680 ≤ interSum (fun p => p.z) smallArr 10
          ∧ interSum (fun p => p.z) smallArr 10 ≤ 327670)
      ∧ sumField32 (fun p => p.x) smallArr = sumField (fun p => p.x) smallArr
      ∧ sumField32 (fun p => p.y) smallArr = sumField (fun p => p.y) smallArr
      ∧ sumField32 (fun p => p.z) smallArr = sumField (fun p => p.z) smallArr
      ∧ wrap32 (Int.tdiv (sumField (fun p => p.x) smallArr) 10)
          = Int.tdiv (sumField (fun p => p.x) smallArr) 10
      ∧ wrap32 (Int.tdiv (sumField (fun p => p.y) smallArr) 10)
          = Int.tdiv (sumField (fun p => p.y) smallArr) 10
      ∧ wrap32 (Int.tdiv (sumField (fun p => p.z) smallArr) 10)
          = Int.tdiv (sumField (fun p => p.z) smallArr) 10) :=
  ⟨by decide, filter_sum_no_overflow smallArr 10 (by decide)⟩

